import Mathlib

/-
Verification of the natural-language tag extraction and conversation-context
subsystem of the hackathon-todo repository (phase3-mcp-server and
phase3-backend).  Python strings are modelled as lists of characters
(`PyStr`); the regular-expression templates of `TagExtractor` are modelled by
a small backtracking matcher over an atom list that mirrors Python
`re.search` semantics (leftmost start position wins, greedy quantifiers,
alternation tried left to right); floats are modelled as rationals (all
confidence values and thresholds in the source are decimal constants far
apart, so IEEE rounding cannot affect any comparison made by the code).
-/

namespace TodoTags

/-- Python strings are modelled as lists of characters. -/
abbrev PyStr := List Char

/-- The ASCII whitespace characters recognised by Python `str.strip`,
`str.split` and the regex class `\s` (space, tab, newline, carriage return,
vertical tab, form feed).  The source only ever deals with ASCII input, so
the additional Unicode whitespace code points are not modelled. -/
def pyIsSpace (c : Char) : Bool :=
  c == ' ' || c == '\t' || c == '\n' || c == '\r' || c.toNat == 11 || c.toNat == 12

/-- Python `str.lower` on one character, restricted to ASCII: `A`..`Z` map to
`a`..`z`, everything else is unchanged. -/
def pyLowerChar (c : Char) : Char :=
  if 65 ≤ c.toNat ∧ c.toNat ≤ 90 then Char.ofNat (c.toNat + 32) else c

/-- Python `str.lower`. -/
def pyLower (s : PyStr) : PyStr := s.map pyLowerChar

/-- Python `str.strip()`: drop whitespace from both ends. -/
def pyStrip (s : PyStr) : PyStr :=
  ((s.dropWhile pyIsSpace).reverse.dropWhile pyIsSpace).reverse

/-- Membership in the regex character class `[a-z0-9-]`. -/
def tagFormatChar (c : Char) : Bool :=
  decide ('a' ≤ c ∧ c ≤ 'z') || decide ('0' ≤ c ∧ c ≤ '9') || c == '-'

/-- Python `re.match(r"^[a-z0-9-]+$", t) is not None`.  Python `$` also
matches just before a string-final newline, hence the second disjunct; in
`validate_tag` the argument has been stripped first, so that disjunct is
proved unreachable below. -/
def reMatchTagFormat (t : PyStr) : Bool :=
  (!t.isEmpty && t.all tagFormatChar) ||
  (t.getLast? == some '\n' && !t.dropLast.isEmpty && t.dropLast.all tagFormatChar)

/-- `validate_tag` from `app/schemas/tag_schemas.py`: normalise (strip +
lowercase), then check length 1..50 and the format regex.  Returns
`(is_valid, normalized_tag_or_error_message)`; it is a total function (the
Python code raises nothing). -/
def validate_tag (tag : PyStr) : Bool × PyStr :=
  let t := pyLower (pyStrip tag)
  if t.length < 1 then (false, "Tag cannot be empty".toList)
  else if t.length > 50 then (false, "Tag must be 1-50 characters".toList)
  else if reMatchTagFormat t then (true, t)
  else (false, "Tags can only contain lowercase letters, numbers, and hyphens".toList)

/-- The `for tag in tags` loop of `validate_tags`: valid tags are appended
normalised, invalid tags are appended in raw form, input order preserved. -/
def validateTagsLoop : List PyStr → List PyStr × List PyStr
  | [] => ([], [])
  | t :: ts =>
    let vr := validate_tag t
    let rest := validateTagsLoop ts
    if vr.1 then (vr.2 :: rest.1, rest.2) else (rest.1, t :: rest.2)

/-- `validate_tags` from `app/schemas/tag_schemas.py`: partition into
`(valid, invalid)`; if more than 10 tags are valid, the excess valid tags are
moved (in normalised form) onto the end of the invalid list. -/
def validate_tags (tags : List PyStr) : List PyStr × List PyStr :=
  let vi := validateTagsLoop tags
  if vi.1.length > 10 then (vi.1.take 10, vi.2 ++ vi.1.drop 10) else vi

/-- The per-element function underlying the valid side of the loop. -/
def pyValidNorm (t : PyStr) : Option PyStr :=
  if (validate_tag t).1 then some (validate_tag t).2 else none

/-- Each input element of `validate_tags` surfaces on exactly one side:
normalised if valid, raw if invalid. -/
def normOrKeep (t : PyStr) : PyStr :=
  if (validate_tag t).1 then (validate_tag t).2 else t

example : validate_tag "  Work ".toList = (true, "work".toList) := by decide

example : (validate_tag "__ALL__".toList).1 = false := by decide

example : validate_tag "".toList = (false, "Tag cannot be empty".toList) := by decide

example : (validate_tag "has space".toList).1 = false := by decide

example : validate_tags ["Work".toList, "bad!".toList, "urgent".toList]
    = (["work".toList, "urgent".toList], ["bad!".toList]) := by decide

/-- One syntactic atom of the regex templates used by `TagExtractor`.  The
five constructions are exactly the ones occurring in the source patterns:
literal text, `\s+`, `\s*`, an optional literal character (`s?`), an optional
group (`(?:...)?`), and the single capturing group `(.+)` (greedy, `.` does
not match a newline). -/
inductive Atom where
  | lit : PyStr → Atom
  | ws1 : Atom
  | ws0 : Atom
  | optC : Char → Atom
  | optA : List Atom → Atom
  | cap : Atom

mutual

/-- Backtracking matcher for one atom, continuation-passing.  Greedy
quantifiers enumerate candidate consumptions longest-first; optional items
try the present branch first; this is exactly the Python `re` backtracking
order.  The second `Option PyStr` argument carries the text captured by the
(single) capturing group so far. -/
def matchAtom : Atom → PyStr → Option PyStr →
    (PyStr → Option PyStr → Option (Option PyStr)) → Option (Option PyStr)
  | .lit l, s, acc, k => if l.isPrefixOf s then k (s.drop l.length) acc else none
  | .ws1, s, acc, k =>
    let n := (s.takeWhile pyIsSpace).length
    (List.range n).findSome? (fun j => k (s.drop (n - j)) acc)
  | .ws0, s, acc, k =>
    let n := (s.takeWhile pyIsSpace).length
    (List.range (n + 1)).findSome? (fun j => k (s.drop (n - j)) acc)
  | .optC c, s, acc, k =>
    match s with
    | c2 :: rest => if c2 = c then (k rest acc).orElse (fun _ => k s acc) else k s acc
    | [] => k s acc
  | .optA l, s, acc, k => (matchSeq l s acc k).orElse (fun _ => k s acc)
  | .cap, s, _acc, k =>
    let m := (s.takeWhile (fun c => c ≠ '\n')).length
    (List.range m).findSome? (fun j => k (s.drop (m - j)) (some (s.take (m - j))))

/-- Matcher for a sequence of atoms. -/
def matchSeq : List Atom → PyStr → Option PyStr →
    (PyStr → Option PyStr → Option (Option PyStr)) → Option (Option PyStr)
  | [], s, acc, k => k s acc
  | a :: as, s, acc, k => matchAtom a s acc (fun s2 acc2 => matchSeq as s2 acc2 k)

end

/-- Python `re.search`: try every start position from the left; at the first
position where the pattern matches, return `some` of the capture of group 1
(`none` inside means the pattern has no capturing group). -/
def reSearch (pat : List Atom) (s : PyStr) : Option (Option PyStr) :=
  (List.range (s.length + 1)).findSome?
    (fun i => matchSeq pat (s.drop i) none (fun _ a => some a))

/-- First pattern of a template list that matches, in declaration order. -/
def firstPatternMatch (pats : List (List Atom)) (s : PyStr) : Option (Option PyStr) :=
  pats.findSome? (fun p => reSearch p s)

/-- `TagExtractor.EXPLICIT_ADD_PATTERNS`: `tagged with\s+(.+)`,
`tag(?:s)?:\s*(.+)`, `with tags?\s+(.+)`, `tag this with\s+(.+)`,
`add tags?\s+(.+)`. -/
def EXPLICIT_ADD_PATTERNS : List (List Atom) :=
  [[.lit "tagged with".toList, .ws1, .cap],
   [.lit "tag".toList, .optC 's', .lit ":".toList, .ws0, .cap],
   [.lit "with tag".toList, .optC 's', .ws1, .cap],
   [.lit "tag this with".toList, .ws1, .cap],
   [.lit "add tag".toList, .optC 's', .ws1, .cap]]

/-- `TagExtractor.EXPLICIT_FILTER_PATTERNS`:
`show\s+(?:me\s+)?tasks?\s+tagged\s+with\s+(.+)`, `list\s+(?:my\s+)?(.+)\s+tasks?`,
`show\s+(?:my\s+)?(.+)\s+tasks?`, `tasks?\s+tagged\s+with\s+(.+)`,
`my\s+(.+)\s+tasks?`. -/
def EXPLICIT_FILTER_PATTERNS : List (List Atom) :=
  [[.lit "show".toList, .ws1, .optA [.lit "me".toList, .ws1], .lit "task".toList,
      .optC 's', .ws1, .lit "tagged".toList, .ws1, .lit "with".toList, .ws1, .cap],
   [.lit "list".toList, .ws1, .optA [.lit "my".toList, .ws1], .cap, .ws1,
      .lit "task".toList, .optC 's'],
   [.lit "show".toList, .ws1, .optA [.lit "my".toList, .ws1], .cap, .ws1,
      .lit "task".toList, .optC 's'],
   [.lit "task".toList, .optC 's', .ws1, .lit "tagged".toList, .ws1,
      .lit "with".toList, .ws1, .cap],
   [.lit "my".toList, .ws1, .cap, .ws1, .lit "task".toList, .optC 's']]

/-- `TagExtractor.REMOVE_TAG_PATTERNS`: `remove\s+(?:the\s+)?(.+)\s+tag`,
`untag\s+(?:this from\s+)?(.+)`, `delete\s+tag\s+(.+)`, `remove all tags`. -/
def REMOVE_TAG_PATTERNS : List (List Atom) :=
  [[.lit "remove".toList, .ws1, .optA [.lit "the".toList, .ws1], .cap, .ws1,
      .lit "tag".toList],
   [.lit "untag".toList, .ws1, .optA [.lit "this from".toList, .ws1], .cap],
   [.lit "delete".toList, .ws1, .lit "tag".toList, .ws1, .cap],
   [.lit "remove all tags".toList]]

/-- `TagExtractor.STOP_WORDS`. -/
def STOP_WORDS : List PyStr :=
  ["the".toList, "a".toList, "an".toList, "this".toList, "that".toList,
   "from".toList, "to".toList, "and".toList, "or".toList, "with".toList,
   "tagged".toList, "tag".toList, "tags".toList]

/-- Python `pattern in string` (substring containment of `pat` in `s`). -/
def pyContains (s pat : PyStr) : Bool :=
  (List.range (s.length + 1)).any (fun i => pat.isPrefixOf (s.drop i))

example : reSearch [.lit "tagged with".toList, .ws1, .cap]
    ("tagged with work, urgent, work".toList) = some (some "work, urgent, work".toList) := by
  decide

/-- One step of Python `re.split(r",\s*|\s+and\s+", s)`: if one of the two
delimiter alternatives matches at the start of `s`, return the remainder
after the delimiter.  The alternatives are tried left to right as in Python;
greedy maximal-munch on the `\s` runs is exact here because in the first
branch nothing follows `\s*`, and in the second branch `\s+` is followed by
the non-whitespace literal `and` (backtracking to a shorter whitespace run
can never produce a match the maximal run misses). -/
def splitDelimCore : PyStr → Option PyStr
  | ',' :: rest => some (rest.dropWhile pyIsSpace)
  | c :: rest =>
    if pyIsSpace c then
      match (c :: rest).dropWhile pyIsSpace with
      | 'a' :: 'n' :: 'd' :: rest2 =>
        match rest2 with
        | c2 :: _ => if pyIsSpace c2 then some (rest2.dropWhile pyIsSpace) else none
        | [] => none
      | _ => none
    else none
  | [] => none

/-- Python `re.split(r",\s*|\s+and\s+", s)`: scan left to right, splitting
at each leftmost, non-overlapping delimiter match.  The accumulator holds the
current piece reversed.  The first argument is a structural recursion budget:
every step consumes at least one input character (a delimiter match consumes
one or more), so calling with budget `s.length` never exhausts it; the
exhaustion arm is unreachable for such calls and merely closes the scan. -/
def pySplitGo : Nat → PyStr → PyStr → List PyStr
  | 0, s, acc => [acc.reverse ++ s]
  | _ + 1, [], acc => [acc.reverse]
  | fuel + 1, c :: rest, acc =>
    match splitDelimCore (c :: rest) with
    | some r => acc.reverse :: pySplitGo fuel r []
    | none => pySplitGo fuel rest (c :: acc)

/-- Python `re.split(r",\s*|\s+and\s+", s)`. -/
def pySplit (s : PyStr) : List PyStr := pySplitGo s.length s []

/-- Python `tag.split()`: split on whitespace runs, discarding empty pieces.
The accumulator holds the current word reversed. -/
def pyWordSplitGo : PyStr → PyStr → List PyStr
  | [], cur => if cur.isEmpty then [] else [cur.reverse]
  | c :: rest, cur =>
    if pyIsSpace c then
      if cur.isEmpty then pyWordSplitGo rest [] else cur.reverse :: pyWordSplitGo rest []
    else pyWordSplitGo rest (c :: cur)

/-- `TagExtractor._parse_tag_string`: split on commas or the word `and`,
remove stop words from each fragment, join remaining multi-word fragments
with hyphens, drop fragments with no remaining words. -/
def parse_tag_string (tagString : PyStr) : List PyStr :=
  (pySplit tagString).filterMap (fun tag =>
    let filteredWords := (pyWordSplitGo tag []).filter (fun w => !STOP_WORDS.contains w)
    if filteredWords.isEmpty then none
    else some (List.intercalate ['-'] filteredWords))

/-- `TagExtractor._calculate_confidence`: base 0.5, raised to 0.9 on a
pattern match, plus `0.1 * min(tag_count, 3)` when tags were found, capped
at 1.0.  Python floats are modelled as rationals; every comparison the code
makes on these values is decided identically under both representations. -/
def calculate_confidence (patternMatched : Bool) (tagCount : Nat) : ℚ :=
  let base : ℚ := if patternMatched then 9/10 else 1/2
  let base := if tagCount > 0 then base + (1/10) * ((min tagCount 3 : ℕ) : ℚ) else base
  min base 1

/-- `TagSource` from `app/schemas/tag_schemas.py`. -/
inductive TagSource where
  | EXPLICIT
  | IMPLICIT
deriving DecidableEq

/-- `TagExtractionResult` from `app/schemas/tag_schemas.py`.  The pydantic
field validators (confidence in [0,1], at most 10 tags) hold for every value
the extractor constructs, so they are not re-modelled as a partial
constructor. -/
structure TagExtractionResult where
  tags : List PyStr
  confidence : ℚ
  source : TagSource
  raw_input : PyStr
deriving DecidableEq

/-- `TagExtractor.extract_tags_for_creation`. -/
def extract_tags_for_creation (message : PyStr) : TagExtractionResult :=
  let ml := pyLower message
  match firstPatternMatch EXPLICIT_ADD_PATTERNS ml with
  | some capOpt =>
    let tags := parse_tag_string (capOpt.getD [])
    let vi := validate_tags tags
    ⟨vi.1, calculate_confidence true vi.1.length, .EXPLICIT, message⟩
  | none => ⟨[], 1, .EXPLICIT, message⟩

/-- `TagExtractor.extract_tags_for_filtering`. -/
def extract_tags_for_filtering (message : PyStr) : TagExtractionResult :=
  let ml := pyLower message
  match firstPatternMatch EXPLICIT_FILTER_PATTERNS ml with
  | some capOpt =>
    let tags := parse_tag_string (capOpt.getD [])
    let vi := validate_tags tags
    if pyContains ml ("tagged with".toList) then ⟨vi.1, 19/20, .EXPLICIT, message⟩
    else ⟨vi.1, calculate_confidence true vi.1.length, .IMPLICIT, message⟩
  | none => ⟨[], 1/2, .IMPLICIT, message⟩

/-- The reserved `"__ALL__"` marker used by the removal path. -/
def ALL_MARKER : PyStr := "__ALL__".toList

/-- `TagExtractor.extract_tags_for_removal`.  The `"remove all tags"` /
`"delete all tags"` substring check comes first; the last removal pattern
(`remove all tags`) has no capturing group, but it can only match when that
substring check has already returned, so the `getD []` default for a missing
group is unreachable. -/
def extract_tags_for_removal (message : PyStr) : TagExtractionResult :=
  let ml := pyLower message
  if pyContains ml ("remove all tags".toList) || pyContains ml ("delete all tags".toList) then
    ⟨[ALL_MARKER], 1, .EXPLICIT, message⟩
  else
    match firstPatternMatch REMOVE_TAG_PATTERNS ml with
    | some capOpt =>
      let tags := parse_tag_string (capOpt.getD [])
      let vi := validate_tags tags
      ⟨vi.1, calculate_confidence true vi.1.length, .EXPLICIT, message⟩
    | none => ⟨[], 1/2, .EXPLICIT, message⟩

example : parse_tag_string ("work, urgent, work".toList)
    = ["work".toList, "urgent".toList, "work".toList] := by decide

example : (extract_tags_for_creation ("tagged with Work, urgent, Work".toList)).tags
    = ["work".toList, "urgent".toList, "work".toList] := by decide

example : (extract_tags_for_filtering ("show my grocery tasks".toList)).tags
    = ["grocery".toList] := by decide

example : (extract_tags_for_filtering ("hello".toList)).tags = [] := by decide

example : (extract_tags_for_removal ("please Remove All Tags now".toList)).tags
    = [ALL_MARKER] := by decide

/-- The `ValueError` raised by `list_tasks` when confidence is below 0.70,
carrying the natural-language filter text the message interpolates. -/
inductive ListTasksError where
  | lowConfidence : PyStr → ListTasksError
deriving DecidableEq

/-- The tag-filter decision of `list_tasks` (`app/tools/list_tasks.py`,
lines 43-67): an `ok` value is the tag list handed to the Phase 2 backend
read; an `error` models the `ValueError` raised before the `Phase2Client`
is even constructed, so no task-store read happens on that path.  The
Python guard `if natural_language_filter:` is a truthiness test, so both
`None` and the empty string skip extraction entirely and the read proceeds
with `tags or []`. -/
def list_tasks_core (tagsArg : Option (List PyStr)) (nlFilter : Option PyStr) :
    Except ListTasksError (List PyStr) :=
  match nlFilter with
  | none => .ok (tagsArg.getD [])
  | some m =>
    if m.isEmpty then .ok (tagsArg.getD [])
    else
      let r := extract_tags_for_filtering m
      if r.confidence < (7/10 : ℚ) then .error (.lowConfidence m)
      else .ok r.tags

/-- The two `ValueError`s the removal loop of `remove_tags` can raise:
`invalidTag raw reason` for a tag failing validation, `tagNotPresent norm`
for a (normalised) tag missing from the task.  Each carries exactly the
values the Python f-string interpolates. -/
inductive RemoveError where
  | invalidTag : PyStr → PyStr → RemoveError
  | tagNotPresent : PyStr → RemoveError
deriving DecidableEq

/-- The `for tag in tags_to_remove` loop of `remove_tags`
(`app/tools/remove_tags.py`, lines 91-104): starting from a copy of the
current tags, validate each requested tag, fail if it is not present in the
evolving list, otherwise remove its first occurrence. -/
def removeLoop : List PyStr → List PyStr → Except RemoveError (List PyStr)
  | newTags, [] => .ok newTags
  | newTags, t :: ts =>
    let vr := validate_tag t
    if vr.1 = false then .error (.invalidTag t vr.2)
    else if vr.2 ∈ newTags then removeLoop (newTags.erase vr.2) ts
    else .error (.tagNotPresent vr.2)

/-- The tag computation of `remove_tags` (`app/tools/remove_tags.py`, lines
59-104): resolve the tags to remove (natural-language extraction overrides
the explicit list, the `__ALL__` marker sets `remove_all`), then either
clear everything or run the removal loop.  The Python guard
`if natural_language_input:` is a truthiness test, so both `None` and the
empty string leave the explicit list in effect.  An `ok` value is the tag
list written back via `client.update_task`; an `error` models the
`ValueError` raised before that write, leaving the stored task unchanged. -/
def remove_tags_core (currentTags : List PyStr) (removeTagsArg : Option (List PyStr))
    (removeAllArg : Bool) (nlInput : Option PyStr) : Except RemoveError (List PyStr) :=
  let tagsToRemove := removeTagsArg.getD []
  let resolved :=
    match nlInput with
    | none => (tagsToRemove, removeAllArg)
    | some m =>
      if m.isEmpty then (tagsToRemove, removeAllArg)
      else
        let r := extract_tags_for_removal m
        if ALL_MARKER ∈ r.tags then (tagsToRemove, true)
        else (r.tags, removeAllArg)
  if resolved.2 then .ok []
  else removeLoop currentTags resolved.1

/-- The two `ValueError`s of the tag-validation step of `update_task`. -/
inductive UpdateError where
  | invalidTags : List PyStr → UpdateError
  | tooManyTags : Nat → UpdateError
deriving DecidableEq

/-- The merge branch of `update_task` (`app/tools/update_task.py`, lines
92-123, taken when no replacement list is given and extracted tags are
non-empty): fetch current tags, merge via `list(set(current + extracted))`,
validate the union, and fail on any invalid tag or on more than 10 valid
tags.  Python set iteration order is unspecified, so `list(set(...))` is
modelled by `List.dedup`; all properties proved about the result are
order-insensitive (set equality).  An `ok` value is the tag list written
back to the task store. -/
def merge_final_tags (currentTags extractedTags : List PyStr) :
    Except UpdateError (List PyStr) :=
  let finalTags := (currentTags ++ extractedTags).dedup
  let vi := validate_tags finalTags
  if vi.2.isEmpty = false then .error (.invalidTags vi.2)
  else if vi.1.length > 10 then .error (.tooManyTags vi.1.length)
  else .ok vi.1

/-- `CommandType` from `app/utils/context_manager.py`. -/
inductive CommandType where
  | LIST_TASKS
  | FILTER_TASKS
  | CREATE_TASK
  | UPDATE_TASK
  | DELETE_TASK
  | COMPLETE_TASK
deriving DecidableEq

/-- `TaskContext` state from `app/utils/context_manager.py`. -/
structure TaskContext where
  last_task_id : Option String
  last_command_type : Option CommandType
deriving DecidableEq

/-- `TaskContext.__init__`. -/
def TaskContext.init : TaskContext := ⟨none, none⟩

/-- `TaskContext.update`: navigation commands clear `last_task_id`
unconditionally; for the other commands Python executes `elif task_id:`,
a truthiness test, so `None` and the empty string both leave the binding
unchanged while any non-empty id overwrites it. -/
def TaskContext.update (ctx : TaskContext) (command_type : CommandType)
    (task_id : Option String) : TaskContext :=
  if command_type = .LIST_TASKS ∨ command_type = .FILTER_TASKS ∨
      command_type = .CREATE_TASK then
    ⟨none, some command_type⟩
  else
    match task_id with
    | some tid =>
      if tid = "" then ⟨ctx.last_task_id, some command_type⟩
      else ⟨some tid, some command_type⟩
    | none => ⟨ctx.last_task_id, some command_type⟩

/-- `TaskContext.resolve_this`. -/
def TaskContext.resolve_this (ctx : TaskContext) : Option String := ctx.last_task_id

/-- `TaskContext.should_ask_clarification`. -/
def TaskContext.should_ask_clarification (ctx : TaskContext) : Bool :=
  ctx.last_task_id.isNone

/-- `TaskContext.reset`. -/
def TaskContext.reset (_ctx : TaskContext) : TaskContext := ⟨none, none⟩

/-- Python string `<` (lexicographic comparison by code point). -/
def pyStrLtB : PyStr → PyStr → Bool
  | [], [] => false
  | [], _ :: _ => true
  | _ :: _, [] => false
  | a :: as, b :: bs => if a < b then true else if b < a then false else pyStrLtB as bs

/-- Python string `<=`, the order `sorted` sorts by. -/
def pyStrLe (a b : PyStr) : Prop := pyStrLtB b a = false

instance : DecidableRel pyStrLe :=
  fun a b => inferInstanceAs (Decidable (pyStrLtB b a = false))

/-- Python `sorted` on a list of strings: a stable ascending sort.  For the
total order `pyStrLe` the output of any stable sort is unique, so the
insertion sort is an exact model of CPython sorted. -/
def pySorted (l : List PyStr) : List PyStr := List.insertionSort pyStrLe l

/-- One entry of `TagCache._cache`: the sorted tag list and its absolute
expiry time.  Time is modelled as a natural number of seconds. -/
structure CacheEntry where
  tags : List PyStr
  expires_at : Nat
deriving DecidableEq

/-- `TagCache` from `app/services/cache_service.py`: a per-user dictionary
of cache entries plus the configured TTL (`ttl_seconds`, default 60).  The
dictionary is modelled as a function to `Option CacheEntry`; every method
takes the current time explicitly where the Python consults the clock. -/
structure TagCache where
  cache : String → Option CacheEntry
  ttl_seconds : Nat

/-- `TagCache.__init__` (the Python default for `ttl_seconds` is 60). -/
def TagCache.empty (ttl : Nat) : TagCache := ⟨fun _ => none, ttl⟩

/-- `TagCache.get`: a hit only if an entry exists and `expires_at > now`. -/
def TagCache.get (c : TagCache) (user_id : String) (now : Nat) : Option (List PyStr) :=
  match c.cache user_id with
  | some e => if now < e.expires_at then some e.tags else none
  | none => none

/-- `TagCache.set`: store the alphabetically sorted tags with
`expires_at = now + ttl_seconds`. -/
def TagCache.set (c : TagCache) (user_id : String) (tags : List PyStr) (now : Nat) :
    TagCache :=
  ⟨fun v => if v = user_id then some ⟨pySorted tags, now + c.ttl_seconds⟩ else c.cache v,
   c.ttl_seconds⟩

/-- `TagCache.invalidate`: remove the entry for the user. -/
def TagCache.invalidate (c : TagCache) (user_id : String) : TagCache :=
  ⟨fun v => if v = user_id then none else c.cache v, c.ttl_seconds⟩

/-- `TagCache.clear_all`. -/
def TagCache.clear_all (c : TagCache) : TagCache := ⟨fun _ => none, c.ttl_seconds⟩

example : TagCache.get (TagCache.set (TagCache.empty 60) "u1" ["b".toList, "a".toList] 0)
    "u1" 30 = some ["a".toList, "b".toList] := by decide

example : remove_tags_core ["work".toList] (some ["missing".toList]) false none
    = .error (.tagNotPresent ("missing".toList)) := rfl

example : remove_tags_core ["work".toList] (some ["missing".toList]) true none
    = .ok [] := rfl

theorem dropWhile_head_false {α : Type} {p : α → Bool} :
    ∀ {l : List α} {c : α} {rest : List α}, l.dropWhile p = c :: rest → p c = false := by
  intro l
  induction l with
  | nil => intro c rest h; simp [List.dropWhile] at h
  | cons a as ih =>
    intro c rest h
    rw [List.dropWhile_cons] at h
    by_cases hp : p a = true
    · rw [if_pos hp] at h; exact ih h
    · rw [if_neg hp] at h
      injection h with h1 _
      subst h1
      simpa using hp

theorem pyStrip_getLast?_not_space {s : PyStr} {c : Char}
    (h : (pyStrip s).getLast? = some c) : pyIsSpace c = false := by
  unfold pyStrip at h
  rw [List.getLast?_reverse] at h
  match hd : ((s.dropWhile pyIsSpace).reverse).dropWhile pyIsSpace, h with
  | c2 :: rest, h =>
    injection h with h1
    subst h1
    exact dropWhile_head_false hd
  | [], h => simp at h

theorem char_toNat_ofNat {n : Nat} (h2 : n < 55296) : (Char.ofNat n).toNat = n := by
  unfold Char.ofNat
  split
  · rfl
  · next hv => exact absurd (Or.inl h2 : n.isValidChar) hv

theorem pyLowerChar_eq_newline {c : Char} (h : pyLowerChar c = '\n') : c = '\n' := by
  unfold pyLowerChar at h
  split at h
  · next hc =>
    exfalso
    have hn : (Char.ofNat (c.toNat + 32)).toNat = c.toNat + 32 :=
      char_toNat_ofNat (by omega)
    rw [h] at hn
    have : ('\n').toNat = 10 := rfl
    omega
  · exact h

theorem pyLower_pyStrip_getLast?_ne_newline (s : PyStr) :
    (pyLower (pyStrip s)).getLast? ≠ some '\n' := by
  intro h
  unfold pyLower at h
  rw [List.getLast?_eq_head?_reverse, ← List.map_reverse, List.head?_map] at h
  match hh : (pyStrip s).reverse.head?, h with
  | some c, h =>
    simp only [Option.map_some', Option.some.injEq] at h
    have hc := pyLowerChar_eq_newline h
    subst hc
    have : (pyStrip s).getLast? = some '\n' := by
      rw [List.getLast?_eq_head?_reverse, hh]
    have := pyStrip_getLast?_not_space this
    simp [pyIsSpace] at this
  | none, h => simp at h

/-- Claim C3: `validate_tag s` accepts (returns `true` together with the
normalised tag) if and only if the trimmed, lowercased form of `s` has length
between 1 and 50 and consists solely of characters from `[a-z0-9-]`; in all
other cases it returns `false` with an error message (the function is total
and never raises). -/
theorem validate_tag_spec (s : PyStr) :
    ((validate_tag s).1 = true ↔
      (1 ≤ (pyLower (pyStrip s)).length ∧ (pyLower (pyStrip s)).length ≤ 50 ∧
        (pyLower (pyStrip s)).all tagFormatChar = true)) ∧
    ((validate_tag s).1 = true → (validate_tag s).2 = pyLower (pyStrip s)) := by
  unfold validate_tag
  by_cases h1 : (pyLower (pyStrip s)).length < 1
  · rw [if_pos h1]
    constructor
    · constructor
      · intro h; simp at h
      · intro ⟨ha, _, _⟩; omega
    · intro h; simp at h
  · rw [if_neg h1]
    by_cases h2 : (pyLower (pyStrip s)).length > 50
    · rw [if_pos h2]
      constructor
      · constructor
        · intro h; simp at h
        · intro ⟨_, hb, _⟩; omega
      · intro h; simp at h
    · rw [if_neg h2]
      by_cases h3 : reMatchTagFormat (pyLower (pyStrip s)) = true
      · rw [if_pos h3]
        constructor
        · constructor
          · intro _
            refine ⟨by omega, by omega, ?_⟩
            unfold reMatchTagFormat at h3
            simp only [Bool.or_eq_true, Bool.and_eq_true] at h3
            rcases h3 with ⟨_, hall⟩ | ⟨⟨hlast, _⟩, _⟩
            · exact hall
            · exfalso
              apply pyLower_pyStrip_getLast?_ne_newline s
              simpa using hlast
          · intro _; rfl
        · intro _; rfl
      · rw [if_neg h3]
        constructor
        · constructor
          · intro h; simp at h
          · intro ⟨ha, _, hall⟩
            exfalso
            apply h3
            unfold reMatchTagFormat
            have hne : (pyLower (pyStrip s)).isEmpty = false := by
              cases hL : pyLower (pyStrip s) with
              | nil => rw [hL] at ha; simp at ha
              | cons x xs => simp
            simp [hne, hall]
        · intro h; simp at h

/-- Concrete instantiation discharging the hypotheses of
`validate_tag_spec`. -/
theorem validate_tag_spec_witness :
    (validate_tag ("  Work ".toList)).2 = pyLower (pyStrip ("  Work ".toList)) :=
  (validate_tag_spec ("  Work ".toList)).2 (by decide)

theorem validateTagsLoop_eq (ts : List PyStr) :
    validateTagsLoop ts
      = (ts.filterMap pyValidNorm, ts.filter (fun t => !(validate_tag t).1)) := by
  induction ts with
  | nil => rfl
  | cons t ts ih =>
    simp only [validateTagsLoop, ih, List.filterMap_cons, List.filter_cons, pyValidNorm]
    by_cases hv : (validate_tag t).1
    · simp [hv]
    · simp [hv]

theorem validateTagsLoop_account (ts : List PyStr) :
    List.Perm ((validateTagsLoop ts).1 ++ (validateTagsLoop ts).2) (ts.map normOrKeep) := by
  induction ts with
  | nil => simp [validateTagsLoop]
  | cons t ts ih =>
    simp only [validateTagsLoop, List.map_cons, normOrKeep]
    by_cases hv : (validate_tag t).1
    · simpa [hv] using ih.cons (validate_tag t).2
    · simp only [hv, if_false, Bool.false_eq_true]
      exact List.perm_middle.trans (ih.cons t)

theorem validate_tags_eq (ts : List PyStr) :
    validate_tags ts
      = (if (ts.filterMap pyValidNorm).length > 10
         then ((ts.filterMap pyValidNorm).take 10,
               ts.filter (fun t => !(validate_tag t).1) ++ (ts.filterMap pyValidNorm).drop 10)
         else (ts.filterMap pyValidNorm, ts.filter (fun t => !(validate_tag t).1))) := by
  unfold validate_tags
  rw [validateTagsLoop_eq]

theorem validate_tags_valid_eq (ts : List PyStr) :
    (validate_tags ts).1 = (ts.filterMap pyValidNorm).take 10 := by
  rw [validate_tags_eq]
  by_cases hlen : (ts.filterMap pyValidNorm).length > 10
  · rw [if_pos hlen]
  · rw [if_neg hlen]
    show ts.filterMap pyValidNorm = (ts.filterMap pyValidNorm).take 10
    exact (List.take_of_length_le (by omega)).symm

theorem validate_tags_invalid_eq (ts : List PyStr) :
    (validate_tags ts).2
      = ts.filter (fun t => !(validate_tag t).1) ++ (ts.filterMap pyValidNorm).drop 10 := by
  rw [validate_tags_eq]
  by_cases hlen : (ts.filterMap pyValidNorm).length > 10
  · rw [if_pos hlen]
  · rw [if_neg hlen]
    show ts.filter (fun t => !(validate_tag t).1)
      = ts.filter (fun t => !(validate_tag t).1) ++ (ts.filterMap pyValidNorm).drop 10
    rw [List.drop_eq_nil_of_le (by omega), List.append_nil]

theorem validate_tags_account (ts : List PyStr) :
    List.Perm ((validate_tags ts).1 ++ (validate_tags ts).2) (ts.map normOrKeep) := by
  have hperm := validateTagsLoop_account ts
  rw [validateTagsLoop_eq] at hperm
  dsimp only at hperm
  rw [validate_tags_valid_eq, validate_tags_invalid_eq]
  refine List.Perm.trans ?_ hperm
  have h1 : List.Perm
      (ts.filter (fun t => !(validate_tag t).1) ++ (ts.filterMap pyValidNorm).drop 10)
      ((ts.filterMap pyValidNorm).drop 10 ++ ts.filter (fun t => !(validate_tag t).1)) :=
    List.perm_append_comm
  refine List.Perm.trans (List.Perm.append_left _ h1) ?_
  rw [← List.append_assoc, List.take_append_drop]

/-- Claim C4: `validate_tags` returns at most 10 valid tags; the valid side
is exactly the order-preserving normalisation of the valid inputs truncated
at 10, every individually valid tag beyond the 10th is appended to the
invalid side (not dropped), and the two sides together are a permutation of
the input list (each element normalised if valid, raw if invalid), so every
input element is accounted for. -/
theorem validate_tags_cap_partition (ts : List PyStr) :
    (validate_tags ts).1.length ≤ 10 ∧
    (validate_tags ts).1 = (ts.filterMap pyValidNorm).take 10 ∧
    (validate_tags ts).2
      = ts.filter (fun t => !(validate_tag t).1) ++ (ts.filterMap pyValidNorm).drop 10 ∧
    List.Perm ((validate_tags ts).1 ++ (validate_tags ts).2) (ts.map normOrKeep) := by
  refine ⟨?_, validate_tags_valid_eq ts, validate_tags_invalid_eq ts, validate_tags_account ts⟩
  rw [validate_tags_valid_eq]
  exact List.length_take_le 10 _

/-- Claim C1 (corrected): the counterexample.  On the spec input
`"tagged with Work, urgent, Work"` the creation pipeline does NOT collapse
the duplicate: it returns `["work", "urgent", "work"]`, which differs from
the claimed `["work", "urgent"]` and contains a duplicate. -/
theorem creation_dedup_counterexample :
    (extract_tags_for_creation ("tagged with Work, urgent, Work".toList)).tags
      = ["work".toList, "urgent".toList, "work".toList] ∧
    (extract_tags_for_creation ("tagged with Work, urgent, Work".toList)).tags
      ≠ ["work".toList, "urgent".toList] ∧
    ¬ (extract_tags_for_creation ("tagged with Work, urgent, Work".toList)).tags.Nodup :=
  ⟨by decide, by decide, by decide⟩

/-- Claim C1 (amended): for the input message
`"tagged with Work, urgent, Work"` the creation pipeline yields exactly
`["work", "urgent", "work"]` — tags are case-folded and the valid list
preserves first-seen input order, but duplicates that become equal after
normalisation are kept, not collapsed (the valid list is the
order-preserving normalisation of the valid inputs, truncated at 10). -/
theorem creation_pipeline_no_dedup :
    (extract_tags_for_creation ("tagged with Work, urgent, Work".toList)).tags
      = ["work".toList, "urgent".toList, "work".toList] ∧
    ∀ ts : List PyStr, (validate_tags ts).1 = (ts.filterMap pyValidNorm).take 10 :=
  ⟨by decide, validate_tags_valid_eq⟩

theorem calculate_confidence_true (n : Nat) :
    calculate_confidence true n = if n = 0 then 9/10 else 1 := by
  unfold calculate_confidence
  cases n with
  | zero => norm_num
  | succ k =>
    have h1 : (1 : ℚ) ≤ ((min (k + 1) 3 : ℕ) : ℚ) := by
      have : 1 ≤ min (k + 1) 3 := Nat.le_min.mpr ⟨by omega, by omega⟩
      exact_mod_cast this
    have h2 : (1 : ℚ) ≤ 9/10 + 1/10 * ((min (k + 1) 3 : ℕ) : ℚ) := by linarith
    simp only [if_true, Nat.succ_ne_zero, if_false, gt_iff_lt, Nat.zero_lt_succ,
      Nat.succ_sub_succ_eq_sub]
    exact min_eq_right h2

theorem extract_filtering_none {m : PyStr}
    (hm : firstPatternMatch EXPLICIT_FILTER_PATTERNS (pyLower m) = none) :
    extract_tags_for_filtering m = ⟨[], 1/2, .IMPLICIT, m⟩ := by
  unfold extract_tags_for_filtering
  dsimp only
  rw [hm]

theorem extract_filtering_some {m : PyStr} {capOpt : Option PyStr}
    (hm : firstPatternMatch EXPLICIT_FILTER_PATTERNS (pyLower m) = some capOpt) :
    extract_tags_for_filtering m
      = (if pyContains (pyLower m) ("tagged with".toList)
         then ⟨(validate_tags (parse_tag_string (capOpt.getD []))).1, 19/20, .EXPLICIT, m⟩
         else ⟨(validate_tags (parse_tag_string (capOpt.getD []))).1,
               calculate_confidence true
                 (validate_tags (parse_tag_string (capOpt.getD []))).1.length,
               .IMPLICIT, m⟩) := by
  unfold extract_tags_for_filtering
  dsimp only
  rw [hm]

theorem list_tasks_core_some (tagsArg : Option (List PyStr)) (m : PyStr) (hm : m ≠ []) :
    list_tasks_core tagsArg (some m)
      = (if (extract_tags_for_filtering m).confidence < (7/10 : ℚ)
         then .error (.lowConfidence m)
         else .ok (extract_tags_for_filtering m).tags) := by
  have hne : ¬(m.isEmpty = true) := by
    cases m with
    | nil => exact absurd rfl hm
    | cons c cs => simp
  unfold list_tasks_core
  dsimp only
  rw [if_neg hne]

theorem filtering_confidence_ge {m : PyStr} {capOpt : Option PyStr}
    (hm : firstPatternMatch EXPLICIT_FILTER_PATTERNS (pyLower m) = some capOpt) :
    (9/10 : ℚ) ≤ (extract_tags_for_filtering m).confidence := by
  rw [extract_filtering_some hm]
  by_cases hc : pyContains (pyLower m) ("tagged with".toList)
  · rw [if_pos hc]; norm_num
  · rw [if_neg hc]
    show (9/10 : ℚ) ≤ calculate_confidence true _
    rw [calculate_confidence_true]
    by_cases hz : (validate_tags (parse_tag_string (capOpt.getD []))).1.length = 0
    · rw [if_pos hz]
    · rw [if_neg hz]; norm_num

/-- Claim C10 (corrected): the counterexample.  At the empty-string filter,
no filter template matches and the extraction confidence (of the empty
string) is 0.5 < 0.70, yet `list_tasks` raises nothing: the truthiness
guard `if natural_language_filter:` treats `""` as absent, so the store
read proceeds.  The claimed equivalence (clarification error iff no
template matched) therefore fails at that input. -/
theorem filtering_empty_counterexample :
    list_tasks_core none (some []) = .ok [] ∧
    firstPatternMatch EXPLICIT_FILTER_PATTERNS (pyLower []) = none ∧
    (extract_tags_for_filtering []).confidence < 7/10 :=
  ⟨rfl, by decide,
   by rw [extract_filtering_none (by decide)]; norm_num⟩

/-- Claim C10 (amended): for every message, the filtering-extraction
confidence is either exactly 0.5 (no filter template matched) or one of
0.9, 0.95, 1.0 (a template matched); no value in the open interval
(0.5, 0.9) is reachable; and `list_tasks` raises its below-0.70
clarification error on a natural-language filter exactly when the filter is
non-empty (truthy in Python) and no filter template matched it. -/
theorem filtering_confidence_reachable (m : PyStr) (tagsArg : Option (List PyStr)) :
    ((extract_tags_for_filtering m).confidence = 1/2 ∨
      (extract_tags_for_filtering m).confidence = 9/10 ∨
      (extract_tags_for_filtering m).confidence = 19/20 ∨
      (extract_tags_for_filtering m).confidence = 1) ∧
    ((extract_tags_for_filtering m).confidence = 1/2 ∨
      (9/10 : ℚ) ≤ (extract_tags_for_filtering m).confidence) ∧
    ((list_tasks_core tagsArg (some m) = .error (.lowConfidence m)) ↔
      (m ≠ [] ∧ firstPatternMatch EXPLICIT_FILTER_PATTERNS (pyLower m) = none)) := by
  have hvals : ((extract_tags_for_filtering m).confidence = 1/2 ∨
      (extract_tags_for_filtering m).confidence = 9/10 ∨
      (extract_tags_for_filtering m).confidence = 19/20 ∨
      (extract_tags_for_filtering m).confidence = 1) ∧
      ((extract_tags_for_filtering m).confidence = 1/2 ∨
        (9/10 : ℚ) ≤ (extract_tags_for_filtering m).confidence) := by
    cases hm : firstPatternMatch EXPLICIT_FILTER_PATTERNS (pyLower m) with
    | none =>
      have he := extract_filtering_none hm
      exact ⟨by rw [he]; exact Or.inl rfl, by rw [he]; exact Or.inl rfl⟩
    | some capOpt =>
      have hge := filtering_confidence_ge hm
      refine ⟨?_, Or.inr hge⟩
      rw [extract_filtering_some hm]
      by_cases hc : pyContains (pyLower m) ("tagged with".toList)
      · rw [if_pos hc]; exact Or.inr (Or.inr (Or.inl rfl))
      · rw [if_neg hc]
        show calculate_confidence true _ = 1/2 ∨ calculate_confidence true _ = 9/10 ∨
          calculate_confidence true _ = 19/20 ∨ calculate_confidence true _ = 1
        rw [calculate_confidence_true]
        by_cases hz : (validate_tags (parse_tag_string (capOpt.getD []))).1.length = 0
        · rw [if_pos hz]; exact Or.inr (Or.inl rfl)
        · rw [if_neg hz]; exact Or.inr (Or.inr (Or.inr rfl))
  refine ⟨hvals.1, hvals.2, ?_⟩
  by_cases hme : m = []
  · subst hme
    constructor
    · intro hE
      have hok : list_tasks_core tagsArg (some []) = Except.ok (tagsArg.getD []) := rfl
      rw [hok] at hE
      exact absurd hE (by simp)
    · intro h
      exact absurd rfl h.1
  · rw [list_tasks_core_some tagsArg m hme]
    cases hm : firstPatternMatch EXPLICIT_FILTER_PATTERNS (pyLower m) with
    | none =>
      have he := extract_filtering_none hm
      rw [he]
      rw [if_pos (by norm_num : ((⟨[], 1/2, .IMPLICIT, m⟩ : TagExtractionResult)).confidence
        < 7/10)]
      constructor
      · intro _; exact ⟨hme, rfl⟩
      · intro _; rfl
    | some capOpt =>
      have hge := filtering_confidence_ge hm
      rw [if_neg (by linarith)]
      constructor
      · intro hE; exact absurd hE (by simp)
      · intro h; exact Option.noConfusion h.2

/-- Claim C2 (corrected): the counterexample.  For
`"show my grocery tasks"` the extraction confidence is exactly 1.0, not a
value in [0.6, 0.7] as claimed (a matched template with at least one tag
always scores 1.0). -/
theorem grocery_confidence_counterexample :
    (extract_tags_for_filtering ("show my grocery tasks".toList)).confidence = 1 ∧
    ¬ ((extract_tags_for_filtering ("show my grocery tasks".toList)).confidence
        ≤ 7/10) := by
  have hm : firstPatternMatch EXPLICIT_FILTER_PATTERNS
      (pyLower ("show my grocery tasks".toList)) = some (some ("grocery".toList)) := by decide
  have he := extract_filtering_some hm
  have hc : pyContains (pyLower ("show my grocery tasks".toList))
      ("tagged with".toList) = false := by decide
  have hn : (validate_tags (parse_tag_string ((some ("grocery".toList)).getD []))).1.length
      = 1 := by decide
  rw [he, if_neg (by rw [hc]; exact Bool.false_ne_true), hn]
  rw [calculate_confidence_true]
  norm_num

/-- Claim C2 (amended): for `"show my grocery tasks"` the extractor returns
source IMPLICIT with the single tag `"grocery"` at confidence exactly 1.0
(not 0.6-0.7); the empty filter string is falsy in Python, so `list_tasks`
skips extraction on it and the read proceeds with the explicit tags; and
for every non-empty natural-language filter input whose extraction
confidence is below 0.70, `list_tasks` fails with the clarification error
before any task-store read is performed. -/
theorem grocery_filtering_spec :
    ((extract_tags_for_filtering ("show my grocery tasks".toList)).tags
      = ["grocery".toList] ∧
     (extract_tags_for_filtering ("show my grocery tasks".toList)).source = .IMPLICIT ∧
     (extract_tags_for_filtering ("show my grocery tasks".toList)).confidence = 1) ∧
    (∀ tagsArg : Option (List PyStr),
      list_tasks_core tagsArg (some []) = .ok (tagsArg.getD [])) ∧
    ∀ (tagsArg : Option (List PyStr)) (m : PyStr), m ≠ [] →
      (extract_tags_for_filtering m).confidence < 7/10 →
      list_tasks_core tagsArg (some m) = .error (.lowConfidence m) := by
  refine ⟨?_, fun _ => rfl, ?_⟩
  · refine ⟨by decide, by decide, ?_⟩
    have hm : firstPatternMatch EXPLICIT_FILTER_PATTERNS
        (pyLower ("show my grocery tasks".toList)) = some (some ("grocery".toList)) := by
      decide
    have hc : pyContains (pyLower ("show my grocery tasks".toList))
        ("tagged with".toList) = false := by decide
    have hn : (validate_tags (parse_tag_string ((some ("grocery".toList)).getD []))).1.length
        = 1 := by decide
    rw [extract_filtering_some hm, if_neg (by rw [hc]; exact Bool.false_ne_true), hn]
    rw [calculate_confidence_true]
    norm_num
  · intro tagsArg m hm h
    rw [list_tasks_core_some tagsArg m hm, if_pos h]

/-- Concrete instantiation discharging the hypotheses of
`grocery_filtering_spec`: on the non-empty filter `"hello"` no template
matches, confidence is 0.5 < 0.70, and `list_tasks` fails with the
clarification error. -/
theorem grocery_filtering_witness :
    list_tasks_core none (some ("hello".toList))
      = .error (.lowConfidence ("hello".toList)) :=
  grocery_filtering_spec.2.2 none ("hello".toList) (by decide)
    (by rw [extract_filtering_none (by decide)]; norm_num)

theorem extract_removal_all {m : PyStr}
    (h : (pyContains (pyLower m) ("remove all tags".toList)
      || pyContains (pyLower m) ("delete all tags".toList)) = true) :
    extract_tags_for_removal m = ⟨[ALL_MARKER], 1, .EXPLICIT, m⟩ := by
  unfold extract_tags_for_removal
  dsimp only
  rw [if_pos h]

theorem remove_core_all {current : List PyStr} {removeArg : Option (List PyStr)}
    {removeAllArg : Bool} {m : PyStr}
    (h : (pyContains (pyLower m) ("remove all tags".toList)
      || pyContains (pyLower m) ("delete all tags".toList)) = true) :
    remove_tags_core current removeArg removeAllArg (some m) = .ok [] := by
  have hne : ¬(m.isEmpty = true) := by
    cases m with
    | nil => exact absurd h (by decide)
    | cons c cs => simp
  unfold remove_tags_core
  dsimp only
  rw [if_neg hne, extract_removal_all h]
  simp

/-- Claim C5: every message containing (after lowercasing) the phrase
`"remove all tags"` or `"delete all tags"` extracts to the single `__ALL__`
marker at confidence 1.0 with source EXPLICIT; the remove operation on such
a message always writes the empty tag set, regardless of the current tags
and the other arguments; and the marker can never collide with a user tag
because `validate_tag` rejects it. -/
theorem remove_all_marker_spec :
    (∀ m : PyStr,
      (pyContains (pyLower m) ("remove all tags".toList)
        || pyContains (pyLower m) ("delete all tags".toList)) = true →
      extract_tags_for_removal m = ⟨[ALL_MARKER], 1, .EXPLICIT, m⟩) ∧
    (∀ (current : List PyStr) (removeArg : Option (List PyStr)) (removeAllArg : Bool)
        (m : PyStr),
      (pyContains (pyLower m) ("remove all tags".toList)
        || pyContains (pyLower m) ("delete all tags".toList)) = true →
      remove_tags_core current removeArg removeAllArg (some m) = .ok []) ∧
    (validate_tag ALL_MARKER).1 = false :=
  ⟨fun _ h => extract_removal_all h,
   fun _ _ _ _ h => remove_core_all h,
   by decide⟩

/-- Concrete instantiation discharging the hypotheses of
`remove_all_marker_spec`. -/
theorem remove_all_marker_witness :
    extract_tags_for_removal ("please DELETE all tags".toList)
      = ⟨[ALL_MARKER], 1, .EXPLICIT, "please DELETE all tags".toList⟩ ∧
    remove_tags_core ["work".toList, "home".toList] none false
      (some ("please DELETE all tags".toList)) = .ok [] :=
  ⟨remove_all_marker_spec.1 ("please DELETE all tags".toList) (by decide),
   remove_all_marker_spec.2.1 ["work".toList, "home".toList] none false
     ("please DELETE all tags".toList) (by decide)⟩

/-- Claim C6 (corrected): the counterexample.  `update` with the non-null
but empty-string task id `some ""` does not overwrite the binding (Python
tests `elif task_id:`, a truthiness check): after binding `"T1"`, an update
with `some ""` still resolves to `"T1"`, not to `""` as the claim requires
for every non-null id. -/
theorem task_context_empty_string_counterexample :
    (TaskContext.update (TaskContext.update TaskContext.init .UPDATE_TASK (some "T1"))
        .DELETE_TASK (some "")).last_task_id = some "T1" ∧
    (some "T1" : Option String) ≠ some "" := by
  exact ⟨rfl, by simp⟩

/-- Claim C6 (amended): `update` forces `last_task_id` to `none` for
LIST_TASKS, FILTER_TASKS and CREATE_TASK regardless of the supplied id; for
UPDATE_TASK, DELETE_TASK and COMPLETE_TASK it sets `last_task_id` to the
given task id when that id is non-null and non-empty, and leaves it
unchanged when the id is null or the empty string; `resolve_this` returns
`last_task_id`; `should_ask_clarification` holds exactly when it is `none`;
and the spec round trip LIST → UPDATE("T1") → DELETE(None) ends at "T1". -/
theorem task_context_update_spec :
    (∀ (ctx : TaskContext) (tid : Option String) (c : CommandType),
      (c = .LIST_TASKS ∨ c = .FILTER_TASKS ∨ c = .CREATE_TASK) →
      (ctx.update c tid).last_task_id = none) ∧
    (∀ (ctx : TaskContext) (c : CommandType),
      (c = .UPDATE_TASK ∨ c = .DELETE_TASK ∨ c = .COMPLETE_TASK) →
      ((ctx.update c none).last_task_id = ctx.last_task_id ∧
       (ctx.update c (some "")).last_task_id = ctx.last_task_id ∧
       ∀ s : String, s ≠ "" → (ctx.update c (some s)).last_task_id = some s)) ∧
    (∀ ctx : TaskContext, ctx.resolve_this = ctx.last_task_id) ∧
    (∀ ctx : TaskContext, ctx.should_ask_clarification = ctx.last_task_id.isNone) ∧
    ((TaskContext.init.update .LIST_TASKS none).resolve_this = none ∧
     ((TaskContext.init.update .LIST_TASKS none).update .UPDATE_TASK
        (some "T1")).resolve_this = some "T1" ∧
     (((TaskContext.init.update .LIST_TASKS none).update .UPDATE_TASK
        (some "T1")).update .DELETE_TASK none).resolve_this = some "T1") := by
  refine ⟨?_, ?_, fun _ => rfl, fun _ => rfl, rfl, rfl, rfl⟩
  · intro ctx tid c hc
    unfold TaskContext.update
    rw [if_pos hc]
  · intro ctx c hc
    have hne : ¬(c = .LIST_TASKS ∨ c = .FILTER_TASKS ∨ c = .CREATE_TASK) := by
      rcases hc with h | h | h <;> subst h <;> simp
    refine ⟨?_, ?_, ?_⟩
    · unfold TaskContext.update
      rw [if_neg hne]
    · unfold TaskContext.update
      rw [if_neg hne]
      simp
    · intro s hs
      unfold TaskContext.update
      rw [if_neg hne]
      simp [hs]

/-- Concrete instantiation discharging the hypotheses of
`task_context_update_spec`. -/
theorem task_context_update_witness :
    (TaskContext.init.update .CREATE_TASK (some "X9")).last_task_id = none ∧
    (TaskContext.init.update .COMPLETE_TASK (some "X9")).last_task_id = some "X9" :=
  ⟨task_context_update_spec.1 TaskContext.init (some "X9") .CREATE_TASK
     (Or.inr (Or.inr rfl)),
   (task_context_update_spec.2.1 TaskContext.init .COMPLETE_TASK
     (Or.inr (Or.inr rfl))).2.2 "X9" (by simp)⟩

theorem find?_congr_pred {α : Type} {p q : α → Bool} :
    ∀ {l : List α}, (∀ x ∈ l, p x = q x) → l.find? p = l.find? q := by
  intro l
  induction l with
  | nil => intro _; rfl
  | cons a as ih =>
    intro h
    have ha := h a (List.mem_cons_self a as)
    by_cases hp : p a = true
    · rw [List.find?_cons_of_pos _ hp, List.find?_cons_of_pos _ (ha ▸ hp)]
    · have hp' : p a = false := by simpa using hp
      rw [List.find?_cons_of_neg _ (by simp [hp']),
        List.find?_cons_of_neg _ (by simp [← ha, hp'])]
      exact ih (fun x hx => h x (List.mem_cons_of_mem a hx))

theorem removeLoop_absent :
    ∀ (ts acc : List PyStr) (t0 : PyStr),
    (∀ t ∈ ts, (validate_tag t).1 = true) →
    (ts.map (fun t => (validate_tag t).2)).Nodup →
    ts.find? (fun t => !decide ((validate_tag t).2 ∈ acc)) = some t0 →
    removeLoop acc ts = .error (.tagNotPresent (validate_tag t0).2) := by
  intro ts
  induction ts with
  | nil => intro acc t0 _ _ hfind; simp at hfind
  | cons t ts ih =>
    intro acc t0 hval hnodup hfind
    have hvt : (validate_tag t).1 = true := hval t (List.mem_cons_self t ts)
    show (let vr := validate_tag t;
      if vr.1 = false then .error (.invalidTag t vr.2)
      else if vr.2 ∈ acc then removeLoop (acc.erase vr.2) ts
      else .error (.tagNotPresent vr.2)) = _
    dsimp only
    rw [if_neg (by simp [hvt])]
    by_cases hmem : (validate_tag t).2 ∈ acc
    · rw [if_pos hmem]
      rw [List.find?_cons_of_neg _ (by simp [hmem])] at hfind
      have hnd := hnodup
      rw [List.map_cons, List.nodup_cons] at hnd
      have hne : ∀ u ∈ ts, (validate_tag u).2 ≠ (validate_tag t).2 := by
        intro u hu heq
        exact hnd.1 (heq ▸ List.mem_map_of_mem (fun v => (validate_tag v).2) hu)
      have hfind2 : ts.find?
          (fun u => !decide ((validate_tag u).2 ∈ acc.erase (validate_tag t).2))
          = some t0 := by
        rw [find?_congr_pred (fun u hu => ?_)]
        · exact hfind
        · have : ((validate_tag u).2 ∈ acc.erase (validate_tag t).2)
              ↔ ((validate_tag u).2 ∈ acc) :=
            List.mem_erase_of_ne (hne u hu)
          simp [this]
      exact ih (acc.erase (validate_tag t).2) t0
        (fun u hu => hval u (List.mem_cons_of_mem t hu)) hnd.2 hfind2
    · rw [if_neg hmem]
      rw [List.find?_cons_of_pos _ (by simp [hmem])] at hfind
      injection hfind with h0
      rw [h0]

/-- Claim C7 (corrected): the counterexample.  A `remove_tags` call with
`remove_all = true` that also names a tag absent from the task succeeds
(clearing the tags) instead of failing with an error naming that tag. -/
theorem remove_all_bypass_counterexample :
    remove_tags_core ["work".toList] (some ["missing".toList]) true none = .ok [] ∧
    ("missing".toList ∉ (["work".toList] : List PyStr)) :=
  ⟨rfl, by decide⟩

/-- Claim C7 (amended): for every `remove_tags` call with `remove_all` false
whose (explicit) removal list consists of format-valid tags with pairwise
distinct normalised forms, if some listed tag's normalised form is not in
the task's current tag list, the operation fails with `TagNotPresentError`
naming the first such tag, and no write to the task store is performed (the
error is returned instead of a new tag list), so the task's tag set is
unchanged. -/
theorem remove_missing_tag_spec (current ts : List PyStr) (t0 : PyStr)
    (hval : ∀ t ∈ ts, (validate_tag t).1 = true)
    (hnodup : (ts.map (fun t => (validate_tag t).2)).Nodup)
    (hfind : ts.find? (fun t => !decide ((validate_tag t).2 ∈ current)) = some t0) :
    remove_tags_core current (some ts) false none
      = .error (.tagNotPresent (validate_tag t0).2) := by
  show removeLoop current ts = _
  exact removeLoop_absent ts current t0 hval hnodup hfind

/-- Concrete instantiation discharging the hypotheses of
`remove_missing_tag_spec`. -/
theorem remove_missing_tag_witness :
    remove_tags_core ["work".toList] (some ["work".toList, "missing".toList]) false none
      = .error (.tagNotPresent ("missing".toList)) :=
  remove_missing_tag_spec ["work".toList] ["work".toList, "missing".toList]
    ("missing".toList) (by decide) (by decide) (by decide)

theorem validateTagsLoop_all_valid :
    ∀ {l : List PyStr}, (∀ t ∈ l, validate_tag t = (true, t)) →
    validateTagsLoop l = (l, []) := by
  intro l
  induction l with
  | nil => intro _; rfl
  | cons t ts ih =>
    intro h
    have ht := h t (List.mem_cons_self t ts)
    show (let vr := validate_tag t;
      let rest := validateTagsLoop ts;
      if vr.1 then (vr.2 :: rest.1, rest.2) else (rest.1, t :: rest.2)) = _
    rw [ht, ih (fun u hu => h u (List.mem_cons_of_mem t hu))]
    simp

/-- Claim C8: the merge path of `update_task` computes the set union of the
current and extracted tags: whenever all involved tags are valid (normalised
1-50 character `[a-z0-9-]` strings) and the union has at most 10 distinct
elements, the merge succeeds (no error is raised) with a tag list whose set
of elements is exactly `current ∪ extracted`; in particular, when every
extracted tag is already present, the resulting set equals the current set
(re-adding an existing tag is a no-op). -/
theorem merge_update_idempotent_union (current extracted : List PyStr)
    (hval : ∀ t ∈ current ++ extracted, validate_tag t = (true, t))
    (hcard : ((current ++ extracted).dedup).length ≤ 10) :
    ∃ l, merge_final_tags current extracted = .ok l ∧
      l.toFinset = current.toFinset ∪ extracted.toFinset ∧
      ((∀ x ∈ extracted, x ∈ current) → l.toFinset = current.toFinset) := by
  have hvalM : ∀ t ∈ (current ++ extracted).dedup, validate_tag t = (true, t) :=
    fun t ht => hval t (List.mem_dedup.mp ht)
  have hvt : validate_tags ((current ++ extracted).dedup)
      = ((current ++ extracted).dedup, []) := by
    unfold validate_tags
    rw [validateTagsLoop_all_valid hvalM]
    dsimp only
    rw [if_neg (by omega)]
  have hok : merge_final_tags current extracted = .ok ((current ++ extracted).dedup) := by
    unfold merge_final_tags
    dsimp only
    rw [hvt]
    dsimp only
    rw [if_neg (by simp), if_neg (by omega)]
  have hfin : ((current ++ extracted).dedup).toFinset
      = current.toFinset ∪ extracted.toFinset := by
    rw [← List.toFinset_append]
    ext a
    simp [List.mem_toFinset, List.mem_dedup]
  refine ⟨(current ++ extracted).dedup, hok, hfin, ?_⟩
  intro hsub
  rw [hfin]
  refine Finset.union_eq_left.mpr ?_
  intro x hx
  rw [List.mem_toFinset] at hx ⊢
  exact hsub x hx

/-- Concrete instantiation discharging the hypotheses of
`merge_update_idempotent_union`: re-adding `"work"` to a task tagged
`["work", "home"]` succeeds and leaves the tag set unchanged. -/
theorem merge_update_idempotent_witness :
    ∃ l, merge_final_tags ["work".toList, "home".toList] ["work".toList] = .ok l ∧
      l.toFinset = (["work".toList, "home".toList] : List PyStr).toFinset
        ∪ (["work".toList] : List PyStr).toFinset ∧
      ((∀ x ∈ (["work".toList] : List PyStr),
          x ∈ (["work".toList, "home".toList] : List PyStr)) →
        l.toFinset = (["work".toList, "home".toList] : List PyStr).toFinset) :=
  merge_update_idempotent_union ["work".toList, "home".toList] ["work".toList]
    (by decide) (by decide)

theorem pyStrLtB_trichotomy : ∀ a b : PyStr,
    pyStrLtB a b = true ∨ a = b ∨ pyStrLtB b a = true := by
  intro a
  induction a with
  | nil =>
    intro b
    cases b with
    | nil => exact Or.inr (Or.inl rfl)
    | cons y ys => exact Or.inl rfl
  | cons x xs ih =>
    intro b
    cases b with
    | nil => exact Or.inr (Or.inr rfl)
    | cons y ys =>
      rcases lt_trichotomy x y with hxy | hxy | hxy
      · left
        show (if x < y then true else if y < x then false else pyStrLtB xs ys) = true
        rw [if_pos hxy]
      · subst hxy
        rcases ih ys with h | h | h
        · left
          show (if x < x then true else if x < x then false else pyStrLtB xs ys) = true
          rw [if_neg (lt_irrefl x), if_neg (lt_irrefl x)]
          exact h
        · exact Or.inr (Or.inl (by rw [h]))
        · right; right
          show (if x < x then true else if x < x then false else pyStrLtB ys xs) = true
          rw [if_neg (lt_irrefl x), if_neg (lt_irrefl x)]
          exact h
      · right; right
        show (if y < x then true else if x < y then false else pyStrLtB ys xs) = true
        rw [if_pos hxy]

theorem pyStrLtB_asymm : ∀ a b : PyStr,
    pyStrLtB a b = true → pyStrLtB b a = false := by
  intro a
  induction a with
  | nil =>
    intro b h
    cases b with
    | nil => exact absurd h (by simp [pyStrLtB])
    | cons y ys => rfl
  | cons x xs ih =>
    intro b h
    cases b with
    | nil => exact absurd h (by simp [pyStrLtB])
    | cons y ys =>
      show (if y < x then true else if x < y then false else pyStrLtB ys xs) = false
      by_cases hxy : x < y
      · rw [if_neg (lt_asymm hxy), if_pos hxy]
      · replace h : (if x < y then true else if y < x then false else pyStrLtB xs ys)
            = true := h
        rw [if_neg hxy] at h
        by_cases hyx : y < x
        · rw [if_pos hyx] at h; exact Bool.noConfusion h
        · rw [if_neg hyx] at h
          rw [if_neg hyx, if_neg hxy]
          exact ih ys h

theorem pyStrLtB_trans : ∀ a b c : PyStr,
    pyStrLtB a b = true → pyStrLtB b c = true → pyStrLtB a c = true := by
  intro a
  induction a with
  | nil =>
    intro b c hab hbc
    cases c with
    | nil =>
      cases b with
      | nil => exact hab
      | cons y ys => exact absurd hbc (by simp [pyStrLtB])
    | cons z zs => rfl
  | cons x xs ih =>
    intro b c hab hbc
    cases b with
    | nil => exact absurd hab (by simp [pyStrLtB])
    | cons y ys =>
      cases c with
      | nil => exact absurd hbc (by simp [pyStrLtB])
      | cons z zs =>
        replace hab : (if x < y then true else if y < x then false else pyStrLtB xs ys)
            = true := hab
        replace hbc : (if y < z then true else if z < y then false else pyStrLtB ys zs)
            = true := hbc
        show (if x < z then true else if z < x then false else pyStrLtB xs zs) = true
        by_cases hxy : x < y
        · by_cases hyz : y < z
          · rw [if_pos (lt_trans hxy hyz)]
          · rw [if_neg hyz] at hbc
            by_cases hzy : z < y
            · rw [if_pos hzy] at hbc; exact Bool.noConfusion hbc
            · have hyz' : y = z := le_antisymm (not_lt.mp hzy) (not_lt.mp hyz)
              rw [if_pos (hyz' ▸ hxy)]
        · rw [if_neg hxy] at hab
          by_cases hyx : y < x
          · rw [if_pos hyx] at hab; exact Bool.noConfusion hab
          · rw [if_neg hyx] at hab
            have hxy' : x = y := le_antisymm (not_lt.mp hyx) (not_lt.mp hxy)
            subst hxy'
            by_cases hxz : x < z
            · rw [if_pos hxz]
            · rw [if_neg hxz] at hbc ⊢
              by_cases hzx : z < x
              · rw [if_pos hzx] at hbc; exact Bool.noConfusion hbc
              · rw [if_neg hzx] at hbc ⊢
                exact ih ys zs hab hbc

instance : IsTotal PyStr pyStrLe :=
  ⟨fun a b => by
    unfold pyStrLe
    by_cases h : pyStrLtB b a = true
    · exact Or.inr (pyStrLtB_asymm b a h)
    · exact Or.inl (by simpa using h)⟩

instance : IsTrans PyStr pyStrLe :=
  ⟨fun a b c hab hbc => by
    unfold pyStrLe at hab hbc ⊢
    by_contra h
    have hca : pyStrLtB c a = true := by simpa using h
    rcases pyStrLtB_trichotomy a b with hlt | heq | hgt
    · have := pyStrLtB_trans c a b hca hlt
      rw [this] at hbc
      exact Bool.noConfusion hbc
    · subst heq
      rw [hca] at hbc
      exact Bool.noConfusion hbc
    · rw [hgt] at hab
      exact Bool.noConfusion hab⟩

/-- Claim C9: `set` stores the tags sorted ascending (a permutation of the
input, sorted under the Python string order) with
`expires_at = now + ttl_seconds`; `get` returns the stored sorted list
exactly when an entry exists and the current time is strictly before its
expiry; after `invalidate` the lookup is a miss; and concretely (with the
default TTL of 60) `set "u1" ["b","a"]` at time 0 followed by `get "u1"` at
time 30 returns `["a","b"]`. -/
theorem tag_cache_spec :
    (∀ (c : TagCache) (u : String) (t : List PyStr) (now : Nat),
      (c.set u t now).cache u = some ⟨pySorted t, now + c.ttl_seconds⟩) ∧
    (∀ t : List PyStr, List.Sorted pyStrLe (pySorted t) ∧ List.Perm (pySorted t) t) ∧
    (∀ (c : TagCache) (u : String) (now : Nat),
      (c.get u now).isSome = true ↔ ∃ e, c.cache u = some e ∧ now < e.expires_at) ∧
    (∀ (c : TagCache) (u : String) (t : List PyStr) (now now2 : Nat),
      (c.set u t now).get u now2
        = if now2 < now + c.ttl_seconds then some (pySorted t) else none) ∧
    (∀ (c : TagCache) (u : String) (now : Nat), (c.invalidate u).get u now = none) ∧
    ((((TagCache.empty 60).set "u1" ["b".toList, "a".toList] 0).get "u1" 30)
      = some ["a".toList, "b".toList]) := by
  refine ⟨?_, ?_, ?_, ?_, ?_, ?_⟩
  · intro c u t now
    unfold TagCache.set
    simp
  · intro t
    exact ⟨List.sorted_insertionSort pyStrLe t, List.perm_insertionSort pyStrLe t⟩
  · intro c u now
    unfold TagCache.get
    cases hc : c.cache u with
    | none => simp
    | some e =>
      by_cases ht : now < e.expires_at
      · simp [ht]
      · simp [ht]
  · intro c u t now now2
    unfold TagCache.get TagCache.set
    simp
  · intro c u now
    unfold TagCache.get TagCache.invalidate
    simp
  · decide

end TodoTags
